import Mathlib

/-!
Shallow embedding of the tentris-license-aggregator core (src/lib.rs, with the
duplicated pipeline functions of src/main.rs noted as aliases).

External collaborators enter as explicit parameters rather than as stubs:
the spdx crate (expression parsing and requirement minimization) is a record
of functions over an abstract expression type, the license store classifier
is a function from license text to a classification result, the LicenseInfo
rendering of cargo-about is a function parameter, and the filesystem is a
function from paths to either contents or an error message.  The aggregator
code itself — the loops, matches, filters and error propagation of lib.rs —
is translated function by function.
-/

set_option maxHeartbeats 1000000

/-- Prefix test on char lists: the first list starts with the second. -/
def hasPfx : List Char → List Char → Bool
  | _, [] => true
  | [], _ :: _ => false
  | c :: cs, d :: ds => c == d && hasPfx cs ds

/-- Substring test on char lists. -/
def hasSub : List Char → List Char → Bool
  | [], pat => pat.isEmpty
  | c :: cs, pat => hasPfx (c :: cs) pat || hasSub cs pat

/-- Rust str::contains (substring containment), used for the crate-name
exclusion rule in collect_krate_licenses. -/
def containsSubstr (s pat : String) : Bool := hasSub s.data pat.data

/-- Model of camino Utf8Path::is_absolute on Unix: the path starts with a
slash. -/
def isAbsolutePath (p : String) : Bool :=
  match p.data with
  | [] => false
  | c :: _ => c == '/'

/-- Model of Utf8Path::join for a relative right-hand side. -/
def joinPath (dir p : String) : String := dir ++ "/" ++ p

/-- Last slash-separated component of a char list (helper for fileName). -/
def lastComponent : List Char → List Char → List Char
  | acc, [] => acc
  | acc, c :: cs => if c == '/' then lastComponent [] cs else lastComponent (acc ++ [c]) cs

/-- Model of license_path.file_name().unwrap() for an ordinary file path. -/
def fileName (p : String) : String := String.mk (lastComponent [] p.data)

/-- LicenseFile of src/lib.rs: filename, optional SPDX identifier, contents. -/
structure LicenseFile where
  name : String
  spdx : Option String
  text : String
deriving DecidableEq

/-- Package of src/lib.rs. -/
structure Package where
  package_name : String
  package_version : String
  package_url : Option String
  license_spdx : Option String
  license_files : List LicenseFile
deriving DecidableEq

/-- Result of LicenseStore::analyze on a block of license text: the matched
identifier and a confidence score.  The f64 score of the source is modelled
as a rational, which is faithful for the single comparison the aggregator
performs on it (score < 0.9). -/
structure Classification where
  name : String
  score : Rat
deriving DecidableEq

/-- SPDX boolean license expression tree (the spdx crate Expression as the
aggregator observes it: requirement leaves combined by AND and OR; a WITH
exception is folded into the leaf identifier). -/
inductive SpdxExpr where
  | req (id : String)
  | and (l r : SpdxExpr)
  | or (l r : SpdxExpr)
deriving DecidableEq

/-- Number of requirement leaves, modelling
expr.iter().filter(matches ExprNode::Req).count() of lib.rs line 139. -/
def reqCount : SpdxExpr → Nat
  | .req _ => 1
  | .and l r => reqCount l + reqCount r
  | .or l r => reqCount l + reqCount r

/-- cargo-about LicenseInfo as matched by collect_krate_licenses. -/
inductive LicenseInfo where
  | expr (e : SpdxExpr)
  | unknown
  | ignore
deriving DecidableEq

/-- The fields of a gathered krate that collect_krate_licenses reads.
manifest_dir models krate.manifest_path.parent().unwrap(). -/
structure Krate where
  name : String
  version : String
  repository : Option String
  homepage : Option String
  manifest_dir : String
deriving DecidableEq

/-- A gathered license file record: its path and the string rendering of its
declared license expression (l.license_expr.to_string() in the source). -/
structure GatheredFile where
  path : String
  license_expr_str : String
deriving DecidableEq

/-- One element yielded by Gatherer::gather. -/
structure KrateLicense where
  krate : Krate
  lic_info : LicenseInfo
  license_files : List GatheredFile
deriving DecidableEq

/-- Structured rendering of the tracing::warn! diagnostics of the source:
each constructor carries the data interpolated into the corresponding format
string. -/
inductive Warning where
  | lowConfidence (score : Rat) (packageName packageVersion : String)
  | countMismatch (krateName krateVersion : String) (nSpdx nFiles : Nat)
  | unknownLicense (krateName krateVersion : String)
  | unreadableFile (path msg : String)
  | noLicenseFiles (krateName krateVersion : String)
deriving DecidableEq

/-- Structured rendering of the anyhow errors the aggregator can return.
parseError models the bare question-mark propagation of
Expression::parse(lspdx)? at lib.rs line 98: it carries only the library
message, no package identity.  minimizeContext models the .with_context
wrapping at lib.rs lines 101-106, which interpolates the package name,
version and debug-formatted license_spdx into the context string; the
constructor carries those fields structurally.  bail models anyhow::bail!. -/
inductive AggError where
  | parseError (libMsg : String)
  | minimizeContext (packageName packageVersion : String) (licenseSpdx : Option String) (libMsg : String)
  | bail (msg : String)
deriving DecidableEq

/-- Interface of the spdx crate as minimize_requirements uses it: parsing a
stored expression string, and minimizing a parsed expression against the
accepted-license policy (already composed with Requirement::to_string, so
the minimized requirements arrive as strings). -/
structure SpdxLib (Expr : Type) where
  parse : String → Except String Expr
  minimizedRequirements : Expr → List String → Except String (List String)

/-- Body of the inner loop of augment_licenses (lib.rs lines 69-85): a file
that already has an spdx identifier is untouched; otherwise the classifier
runs on its text, a low-confidence warning is emitted when the score is
below 0.9, and the spdx field is set to the matched identifier. -/
def augmentFile (analyze : String → Classification) (pn pv : String) (l : LicenseFile) :
    LicenseFile × List Warning :=
  match l.spdx with
  | some _ => (l, [])
  | none =>
    let analysis := analyze l.text
    ({ l with spdx := some analysis.name },
     if analysis.score < 9/10 then [Warning.lowConfidence analysis.score pn pv] else [])

/-- Per-package part of augment_licenses: every license file goes through
augmentFile, in place. -/
def augmentPackage (analyze : String → Classification) (p : Package) : Package × List Warning :=
  ({ p with license_files :=
      p.license_files.map (fun l => (augmentFile analyze p.package_name p.package_version l).1) },
   (p.license_files.map (fun l => (augmentFile analyze p.package_name p.package_version l).2)).flatten)

/-- augment_licenses of lib.rs lines 67-89 (its loop body is duplicated
verbatim inside collect_cpp_licenses in main.rs lines 178-191): mutates the
package slice in place and always returns Ok(()).  The embedding returns the
mutated slice together with the emitted warnings, wrapped in the Except of
the anyhow::Result signature. -/
def augment_licenses (analyze : String → Classification) (pkgs : List Package) :
    Except AggError (List Package × List Warning) :=
  Except.ok (pkgs.map (fun p => (augmentPackage analyze p).1),
             (pkgs.map (fun p => (augmentPackage analyze p).2)).flatten)

/-- Retention predicate of lib.rs lines 111-113:
license.spdx.is_none() || license.spdx.as_ref().is_some_and(contained in the
minimized requirement strings). -/
def keepPred (reqs : List String) (l : LicenseFile) : Bool :=
  l.spdx.isNone ||
    (match l.spdx with
     | some s => reqs.contains s
     | none => false)

/-- Body of the loop of minimize_requirements for one package (lib.rs lines
97-114): a package without a stored expression is untouched; otherwise the
expression is parsed (parse failure propagates bare), minimized against the
accepted policy (failure is wrapped with package context), and the package
license files are filtered by keepPred. -/
def minimizePackage {Expr : Type} (lib : SpdxLib Expr) (accepted : List String) (p : Package) :
    Except AggError Package :=
  match p.license_spdx with
  | none => Except.ok p
  | some lspdx =>
    match lib.parse lspdx with
    | Except.error e => Except.error (AggError.parseError e)
    | Except.ok expr =>
      match lib.minimizedRequirements expr accepted with
      | Except.error e =>
        Except.error (AggError.minimizeContext p.package_name p.package_version p.license_spdx e)
      | Except.ok reqs =>
        Except.ok { p with license_files := p.license_files.filter (keepPred reqs) }

/-- minimize_requirements of lib.rs lines 95-118: processes the package slice
in order, mutating each package in place; the first error aborts the loop via
the question-mark operator, leaving the offending package and every later
package untouched.  The embedding returns the slice as the loop leaves it
together with the error, if any. -/
def minimize_requirements {Expr : Type} (lib : SpdxLib Expr) (accepted : List String) :
    List Package → List Package × Option AggError
  | [] => ([], none)
  | p :: ps =>
    match minimizePackage lib accepted p with
    | Except.error e => (p :: ps, some e)
    | Except.ok q =>
      let rest := minimize_requirements lib accepted ps
      (q :: rest.1, rest.2)

/-- minimize of main.rs lines 199-217, a verbatim duplicate of
minimize_requirements. -/
def minimize {Expr : Type} (lib : SpdxLib Expr) (accepted : List String)
    (pkgs : List Package) : List Package × Option AggError :=
  minimize_requirements lib accepted pkgs

/-- Model of Option::or on package urls:
krate.repository.as_ref().or(krate.homepage.as_ref()).map(ToOwned::to_owned). -/
def optOr (a b : Option String) : Option String :=
  match a with
  | some x => some x
  | none => b

/-- The match on lic_info in collect_krate_licenses (lib.rs lines 137-151):
an expression yields a count-mismatch warning when its requirement-leaf count
differs from the number of gathered license files, Unknown yields a warning,
and Ignore bails with the message of lib.rs line 149. -/
def licInfoCheck (kl : KrateLicense) : Except AggError (List Warning) :=
  match kl.lic_info with
  | LicenseInfo.expr e =>
    let n := reqCount e
    Except.ok (if n ≠ kl.license_files.length then
      [Warning.countMismatch kl.krate.name kl.krate.version n kl.license_files.length]
    else [])
  | LicenseInfo.unknown => Except.ok [Warning.unknownLicense kl.krate.name kl.krate.version]
  | LicenseInfo.ignore => Except.error (AggError.bail ("Ignoring a crate shouldd not happen"))

/-- File-reading loop of collect_krate_licenses (lib.rs lines 153-166): each
gathered file path is resolved against the manifest directory unless
absolute; a readable file becomes a LicenseFile whose spdx is the declared
expression string, an unreadable one only emits a warning. -/
def readLicenseFiles (readFile : String → Except String String) (manifest_dir : String) :
    List GatheredFile → List LicenseFile × List Warning
  | [] => ([], [])
  | g :: gs =>
    let license_path := if isAbsolutePath g.path then g.path else joinPath manifest_dir g.path
    let rest := readLicenseFiles readFile manifest_dir gs
    match readFile license_path with
    | Except.ok text =>
      ({ name := fileName license_path, spdx := some g.license_expr_str, text := text } :: rest.1,
       rest.2)
    | Except.error e => (rest.1, Warning.unreadableFile license_path e :: rest.2)

/-- Per-krate body of the gather loop of collect_krate_licenses (lib.rs lines
137-184), after the exclusion test: the lic_info match (which can bail), the
file-reading loop, the empty-files warning, and the Package record whose
license_spdx is always Some of the rendering of lic_info (licStr models the
Display of cargo-about LicenseInfo, used by lic_info.to_string() at lib.rs
line 180). -/
def processKrate (readFile : String → Except String String) (licStr : LicenseInfo → String)
    (kl : KrateLicense) : Except AggError (Package × List Warning) :=
  match licInfoCheck kl with
  | Except.error e => Except.error e
  | Except.ok ws₁ =>
    let fw := readLicenseFiles readFile kl.krate.manifest_dir kl.license_files
    let ws₂ := if fw.1.isEmpty then [Warning.noLicenseFiles kl.krate.name kl.krate.version] else []
    Except.ok ({ package_name := kl.krate.name,
                 package_version := kl.krate.version,
                 package_url := optOr kl.krate.repository kl.krate.homepage,
                 license_spdx := some (licStr kl.lic_info),
                 license_files := fw.1 },
               ws₁ ++ fw.2 ++ ws₂)

/-- collect_krate_licenses of lib.rs lines 120-188 (duplicated as
collect_rust_licenses in main.rs lines 95-157): the gathered krates are
processed in order; a krate whose name contains "tentris" is skipped before
anything else; a bail aborts the whole call, discarding the package list but
keeping the warnings already emitted by earlier krates. -/
def collect_krate_licenses (readFile : String → Except String String)
    (licStr : LicenseInfo → String) :
    List KrateLicense → Except AggError (List Package) × List Warning
  | [] => (Except.ok [], [])
  | kl :: rest =>
    if containsSubstr kl.krate.name ("tentris") then
      collect_krate_licenses readFile licStr rest
    else
      match processKrate readFile licStr kl with
      | Except.error e => (Except.error e, [])
      | Except.ok (p, ws) =>
        match collect_krate_licenses readFile licStr rest with
        | (Except.ok ps, ws₂) => (Except.ok (p :: ps), ws ++ ws₂)
        | (Except.error e, ws₂) => (Except.error e, ws ++ ws₂)

/-!
Concrete instantiations of the external-collaborator parameters, used to
evaluate the theorems on closed inputs.
-/

/-- A classifier instance that matches everything as MIT with full
confidence. -/
def sampleAnalyze : String → Classification :=
  fun _ => { name := ("MIT"), score := 1 }

/-- A classifier instance that matches everything as MIT with confidence
one half, below the 0.9 threshold. -/
def lowAnalyze : String → Classification :=
  fun _ => { name := ("MIT"), score := (1 : Rat)/2 }

/-- Minimization algorithm of the spdx crate as the spec describes it
(section 4.3): a leaf is satisfiable iff accepted, an AND node needs the
union of both children, an OR node takes the smaller child set.  Used only
to instantiate the SpdxLib parameter on concrete inputs. -/
def specMinimized : SpdxExpr → List String → Option (List String)
  | .req id, accept => if accept.contains id then some [id] else none
  | .and l r, accept =>
    match specMinimized l accept, specMinimized r accept with
    | some a, some b => some (a ++ b.filter (fun x => !a.contains x))
    | _, _ => none
  | .or l r, accept =>
    match specMinimized l accept, specMinimized r accept with
    | some a, some b => if a.length ≤ b.length then some a else some b
    | some a, none => some a
    | none, some b => some b
    | none, none => none

/-- A fixed parse table over the expression strings appearing in the closed
examples; everything else is a parse error. -/
def sampleParse : String → Except String SpdxExpr
  | "MIT" => Except.ok (.req ("MIT"))
  | "Apache-2.0" => Except.ok (.req ("Apache-2.0"))
  | "MIT OR Apache-2.0" => Except.ok (.or (.req ("MIT")) (.req ("Apache-2.0")))
  | "MIT AND Apache-2.0" => Except.ok (.and (.req ("MIT")) (.req ("Apache-2.0")))
  | _ => Except.error ("unbalanced or unknown expression")

/-- The spdx library instance built from sampleParse and specMinimized. -/
def sampleLib : SpdxLib SpdxExpr :=
  { parse := sampleParse,
    minimizedRequirements := fun e accept =>
      match specMinimized e accept with
      | some reqs => Except.ok reqs
      | none => Except.error ("unsatisfiable") }

/-- A filesystem instance on which every read fails. -/
def sampleRead : String → Except String String :=
  fun _ => Except.error ("no such file")

/-- Serialization of an expression tree, for the sample LicenseInfo
rendering. -/
def exprStr : SpdxExpr → String
  | .req id => id
  | .and l r => "(" ++ exprStr l ++ " AND " ++ exprStr r ++ ")"
  | .or l r => "(" ++ exprStr l ++ " OR " ++ exprStr r ++ ")"

/-- A concrete rendering of LicenseInfo in the shape of the cargo-about
Display implementation. -/
def sampleLicStr : LicenseInfo → String
  | .expr e => exprStr e
  | .unknown => "Unknown"
  | .ignore => "Ignored"

/-- License file tagged MIT. -/
def mitFile : LicenseFile :=
  { name := ("LICENSE-MIT"), spdx := some ("MIT"), text := ("mit text") }

/-- License file tagged Apache-2.0. -/
def apacheFile : LicenseFile :=
  { name := ("LICENSE-APACHE"), spdx := some ("Apache-2.0"), text := ("apache text") }

/-- Unclassified license file. -/
def unkFile : LicenseFile :=
  { name := ("COPYING"), spdx := none, text := ("some other text") }

/-- Package with a dual-licensed expression and three license files. -/
def pkgMixed : Package :=
  { package_name := ("demo"), package_version := ("1.0.0"), package_url := none,
    license_spdx := some ("MIT OR Apache-2.0"),
    license_files := [mitFile, apacheFile, unkFile] }

/-- Package with no stored license expression. -/
def pkgNoSpdx : Package :=
  { package_name := ("rawpkg"), package_version := ("0.2.0"), package_url := none,
    license_spdx := none, license_files := [apacheFile, unkFile] }

/-- Package whose stored expression string does not parse. -/
def pkgBad : Package :=
  { package_name := ("badpkg"), package_version := ("0.1.0"), package_url := none,
    license_spdx := some ("(MIT"), license_files := [] }

/-- Package with a plain MIT expression and one Apache-tagged file that
minimization would prune. -/
def pkgGood : Package :=
  { package_name := ("goodpkg"), package_version := ("2.0.0"), package_url := none,
    license_spdx := some ("MIT"), license_files := [apacheFile] }

/-- Package whose only license file is already classified. -/
def pkgAllSome : Package :=
  { package_name := ("classified"), package_version := ("3.1.4"), package_url := none,
    license_spdx := some ("MIT"), license_files := [mitFile] }

/-- Gathered krate with an Unknown license. -/
def klUnknown : KrateLicense :=
  { krate := { name := ("foo"), version := ("1.0.0"), repository := none, homepage := none,
               manifest_dir := ("/src/foo") },
    lic_info := LicenseInfo.unknown, license_files := [] }

/-- Gathered krate matching the exclusion rule whose license info is
Ignore. -/
def klTentrisIgnore : KrateLicense :=
  { krate := { name := ("tentris-sys"), version := ("0.3.0"), repository := none,
               homepage := none, manifest_dir := ("/src/tentris-sys") },
    lic_info := LicenseInfo.ignore, license_files := [] }

/-- Gathered krate matching the exclusion rule whose expression has one
requirement leaf but no gathered license files. -/
def klTentrisExpr : KrateLicense :=
  { krate := { name := ("tentris-core"), version := ("0.3.0"), repository := none,
               homepage := none, manifest_dir := ("/src/tentris-core") },
    lic_info := LicenseInfo.expr (.req ("MIT")), license_files := [] }

/-- Gathered krate, not excluded, whose license info is Ignore. -/
def klIgnore : KrateLicense :=
  { krate := { name := ("bar"), version := ("0.1.0"), repository := none, homepage := none,
               manifest_dir := ("/src/bar") },
    lic_info := LicenseInfo.ignore, license_files := [] }

/-- Gathered krate, not excluded, with a one-leaf expression and no gathered
license files (a count mismatch). -/
def klMismatch : KrateLicense :=
  { krate := { name := ("baz"), version := ("0.5.0"), repository := none, homepage := none,
               manifest_dir := ("/src/baz") },
    lic_info := LicenseInfo.expr (.req ("MIT")), license_files := [] }

/-- Gathered krate matching the exclusion rule, used for the exclusion
theorem. -/
def klTentrisPlain : KrateLicense :=
  { krate := { name := ("tentris-xyz"), version := ("0.9.0"), repository := none,
               homepage := none, manifest_dir := ("/src/tentris-xyz") },
    lic_info := LicenseInfo.unknown, license_files := [] }

/-!
Helper lemmas shared by the claim theorems.
-/

/-- A list is pointwise related to its image under a map. -/
theorem forall₂_map_self {α β : Type} (R : α → β → Prop) (f : α → β) :
    ∀ l : List α, (∀ a ∈ l, R a (f a)) → List.Forall₂ R l (l.map f)
  | [], _ => List.Forall₂.nil
  | a :: l, h =>
    List.Forall₂.cons (h a (List.mem_cons_self a l))
      (forall₂_map_self R f l (fun b hb => h b (List.mem_cons_of_mem a hb)))

/-- C3: For every license file whose text is classified with a confidence
score below 0.9, augment_licenses does not fail and does not reject the
result: it emits a low-confidence warning and still assigns the matched
identifier to the spdx field, exactly as it does for scores of 0.9 and
above (where the only difference is the absence of the warning). -/
theorem augment_low_confidence (analyze : String → Classification) (pkgs : List Package)
    (pn pv : String) (l : LicenseFile) (hnone : l.spdx = none)
    (hlow : (analyze l.text).score < 9/10) :
    (∃ r, augment_licenses analyze pkgs = Except.ok r) ∧
    augmentFile analyze pn pv l =
      ({ l with spdx := some (analyze l.text).name },
       [Warning.lowConfidence (analyze l.text).score pn pv]) ∧
    ∀ l₂ : LicenseFile, l₂.spdx = none → ¬((analyze l₂.text).score < 9/10) →
      augmentFile analyze pn pv l₂ = ({ l₂ with spdx := some (analyze l₂.text).name }, []) := by
  refine ⟨⟨_, rfl⟩, ?_, ?_⟩
  · simp [augmentFile, hnone, hlow]
  · intro l₂ h₂ hhigh
    simp [augmentFile, h₂, hhigh]

/-- Witness for augment_low_confidence on a concrete unclassified file and a
classifier scoring one half. -/
theorem augment_low_confidence_witness :
    unkFile.spdx = none ∧ (lowAnalyze unkFile.text).score < 9/10 ∧
    ((∃ r, augment_licenses lowAnalyze [] = Except.ok r) ∧
     augmentFile lowAnalyze ("demo") ("1.0.0") unkFile =
       ({ unkFile with spdx := some (lowAnalyze unkFile.text).name },
        [Warning.lowConfidence (lowAnalyze unkFile.text).score ("demo") ("1.0.0")]) ∧
     ∀ l₂ : LicenseFile, l₂.spdx = none → ¬((lowAnalyze l₂.text).score < 9/10) →
       augmentFile lowAnalyze ("demo") ("1.0.0") l₂ =
         ({ l₂ with spdx := some (lowAnalyze l₂.text).name }, [])) :=
  ⟨rfl, by norm_num [lowAnalyze],
   augment_low_confidence lowAnalyze [] ("demo") ("1.0.0") unkFile rfl (by norm_num [lowAnalyze])⟩

/-- C6: augment_licenses mutates a file spdx field at most once and only if
absent: a file whose spdx is Some beforehand is returned unchanged, a file
whose spdx is None gets only its spdx field written (to the matched
identifier), with name and text preserved; all other package fields are
preserved as well. -/
theorem augment_licenses_frame (analyze : String → Classification) (pkgs out : List Package)
    (ws : List Warning) (h : augment_licenses analyze pkgs = Except.ok (out, ws)) :
    List.Forall₂ (fun p q =>
      q.package_name = p.package_name ∧ q.package_version = p.package_version ∧
      q.package_url = p.package_url ∧ q.license_spdx = p.license_spdx ∧
      List.Forall₂ (fun l m =>
        m.name = l.name ∧ m.text = l.text ∧
        (∀ s, l.spdx = some s → m = l) ∧
        (l.spdx = none → m = { l with spdx := some (analyze l.text).name }))
        p.license_files q.license_files) pkgs out := by
  have hout : out = pkgs.map (fun p => (augmentPackage analyze p).1) := by
    simp only [augment_licenses, Except.ok.injEq, Prod.mk.injEq] at h
    exact h.1.symm
  subst hout
  apply forall₂_map_self
  intro p _
  refine ⟨rfl, rfl, rfl, rfl, ?_⟩
  apply forall₂_map_self
  intro l _
  cases hl : l.spdx with
  | some s => simp [augmentFile, hl]
  | none => simp [augmentFile, hl]

/-- Witness for augment_licenses_frame on a package whose single file is
already classified. -/
theorem augment_licenses_frame_witness :
    augment_licenses sampleAnalyze [pkgAllSome] = Except.ok ([pkgAllSome], []) ∧
    List.Forall₂ (fun p q =>
      q.package_name = p.package_name ∧ q.package_version = p.package_version ∧
      q.package_url = p.package_url ∧ q.license_spdx = p.license_spdx ∧
      List.Forall₂ (fun l m =>
        m.name = l.name ∧ m.text = l.text ∧
        (∀ s, l.spdx = some s → m = l) ∧
        (l.spdx = none → m = { l with spdx := some (sampleAnalyze l.text).name }))
        p.license_files q.license_files) [pkgAllSome] [pkgAllSome] :=
  ⟨rfl, augment_licenses_frame sampleAnalyze [pkgAllSome] [pkgAllSome] [] rfl⟩

/-- C9: after augment_licenses returns successfully, every license file of
every package it produced has a populated spdx field, no matter how low the
classification score was. -/
theorem augment_licenses_all_classified (analyze : String → Classification)
    (pkgs out : List Package) (ws : List Warning)
    (h : augment_licenses analyze pkgs = Except.ok (out, ws)) :
    ∀ p ∈ out, ∀ l ∈ p.license_files, l.spdx.isSome = true := by
  have hout : out = pkgs.map (fun p => (augmentPackage analyze p).1) := by
    simp only [augment_licenses, Except.ok.injEq, Prod.mk.injEq] at h
    exact h.1.symm
  subst hout
  intro p hp l hl
  rcases List.mem_map.mp hp with ⟨q, _, rfl⟩
  simp only [augmentPackage, List.mem_map] at hl
  rcases hl with ⟨l₀, _, rfl⟩
  cases h₀ : l₀.spdx with
  | some s => simp [augmentFile, h₀]
  | none => simp [augmentFile, h₀]

/-- Witness for augment_licenses_all_classified on a package whose single
file is already classified. -/
theorem augment_licenses_all_classified_witness :
    augment_licenses sampleAnalyze [pkgAllSome] = Except.ok ([pkgAllSome], []) ∧
    ∀ p ∈ [pkgAllSome], ∀ l ∈ p.license_files, l.spdx.isSome = true :=
  ⟨rfl, augment_licenses_all_classified sampleAnalyze [pkgAllSome] [pkgAllSome] [] rfl⟩

/-- C1: when minimize_requirements succeeds, a package without a stored
expression is unchanged, and a package with one has been filtered by the
minimized requirement set computed for its expression: every remaining file
is unclassified or carries an identifier in that set, and every other file
has been removed. -/
theorem minimize_requirements_prune {Expr : Type} (lib : SpdxLib Expr) (accepted : List String) :
    ∀ (pkgs out : List Package), minimize_requirements lib accepted pkgs = (out, none) →
    List.Forall₂ (fun p q =>
      (p.license_spdx = none → q = p) ∧
      (∀ lspdx, p.license_spdx = some lspdx → ∃ e reqs,
        lib.parse lspdx = Except.ok e ∧
        lib.minimizedRequirements e accepted = Except.ok reqs ∧
        q = { p with license_files := p.license_files.filter (keepPred reqs) } ∧
        ∀ l ∈ q.license_files, l.spdx = none ∨ ∃ s, l.spdx = some s ∧ s ∈ reqs)) pkgs out := by
  intro pkgs
  induction pkgs with
  | nil =>
    intro out h
    simp only [minimize_requirements, Prod.mk.injEq] at h
    rw [← h.1]
    exact List.Forall₂.nil
  | cons p ps ih =>
    intro out h
    rw [minimize_requirements] at h
    cases hpk : minimizePackage lib accepted p with
    | error e =>
      rw [hpk] at h
      simp at h
    | ok q =>
      rw [hpk] at h
      rcases hrec : minimize_requirements lib accepted ps with ⟨qs, err⟩
      rw [hrec] at h
      simp only [Prod.mk.injEq] at h
      obtain ⟨h1, h2⟩ := h
      rw [← h1]
      have hrec₀ : minimize_requirements lib accepted ps = (qs, none) := by
        rw [hrec, h2]
      refine List.Forall₂.cons ?_ (ih qs hrec₀)
      constructor
      · intro hn
        have hpk₂ := hpk
        simp only [minimizePackage, hn, Except.ok.injEq] at hpk₂
        exact hpk₂.symm
      · intro lspdx hs
        have hpk₂ := hpk
        simp only [minimizePackage, hs] at hpk₂
        cases hpar : lib.parse lspdx with
        | error e₂ => simp [hpar] at hpk₂
        | ok e =>
          simp only [hpar] at hpk₂
          cases hmin : lib.minimizedRequirements e accepted with
          | error e₂ => simp [hmin] at hpk₂
          | ok reqs =>
            simp only [hmin, Except.ok.injEq] at hpk₂
            refine ⟨e, reqs, rfl, hmin, ?_, ?_⟩
            · rw [hs]
              exact hpk₂.symm
            · intro l hl
              rw [← hpk₂] at hl
              have hk : keepPred reqs l = true := (List.mem_filter.mp hl).2
              cases hls : l.spdx with
              | none => exact Or.inl rfl
              | some s =>
                refine Or.inr ⟨s, rfl, ?_⟩
                have hc : reqs.contains s = true := by simpa [keepPred, hls] using hk
                simpa using hc

/-- Witness for minimize_requirements_prune on the dual-licensed sample
package: the Apache file is pruned, the MIT and unclassified files stay. -/
theorem minimize_requirements_prune_witness :
    minimize_requirements sampleLib [("MIT")] [pkgMixed] =
      ([{ pkgMixed with license_files := [mitFile, unkFile] }], none) ∧
    List.Forall₂ (fun p q =>
      (p.license_spdx = none → q = p) ∧
      (∀ lspdx, p.license_spdx = some lspdx → ∃ e reqs,
        sampleLib.parse lspdx = Except.ok e ∧
        sampleLib.minimizedRequirements e [("MIT")] = Except.ok reqs ∧
        q = { p with license_files := p.license_files.filter (keepPred reqs) } ∧
        ∀ l ∈ q.license_files, l.spdx = none ∨ ∃ s, l.spdx = some s ∧ s ∈ reqs))
      [pkgMixed] [{ pkgMixed with license_files := [mitFile, unkFile] }] :=
  ⟨rfl, minimize_requirements_prune sampleLib [("MIT")] [pkgMixed]
    [{ pkgMixed with license_files := [mitFile, unkFile] }] rfl⟩

/-- C10: minimize_requirements leaves a package whose license_spdx is None
exactly as it was (same position, all fields identical), and a failure of
the call can only originate from a package whose license_spdx is Some. -/
theorem minimize_requirements_none_frame {Expr : Type} (lib : SpdxLib Expr)
    (accepted : List String) :
    ∀ (pkgs out : List Package) (err : Option AggError),
    minimize_requirements lib accepted pkgs = (out, err) →
    out.length = pkgs.length ∧
    (∀ i (hi : i < pkgs.length) (hi₂ : i < out.length),
      (pkgs.get ⟨i, hi⟩).license_spdx = none → out.get ⟨i, hi₂⟩ = pkgs.get ⟨i, hi⟩) ∧
    (err.isSome = true → ∃ q ∈ pkgs, q.license_spdx ≠ none) := by
  intro pkgs
  induction pkgs with
  | nil =>
    intro out err h
    simp only [minimize_requirements, Prod.mk.injEq] at h
    obtain ⟨h1, h2⟩ := h
    subst h1; subst h2
    exact ⟨rfl, fun i hi => absurd hi (Nat.not_lt_zero i), by simp⟩
  | cons p ps ih =>
    intro out err h
    rw [minimize_requirements] at h
    cases hpk : minimizePackage lib accepted p with
    | error e =>
      rw [hpk] at h
      simp only [Prod.mk.injEq] at h
      obtain ⟨h1, h2⟩ := h
      subst h1; subst h2
      refine ⟨rfl, fun i hi hi₂ _ => rfl, fun _ => ⟨p, List.mem_cons_self p ps, ?_⟩⟩
      intro hn
      simp [minimizePackage, hn] at hpk
    | ok q =>
      rw [hpk] at h
      rcases hrec : minimize_requirements lib accepted ps with ⟨qs, err₀⟩
      rw [hrec] at h
      simp only [Prod.mk.injEq] at h
      obtain ⟨h1, h2⟩ := h
      subst h1; subst h2
      obtain ⟨ihlen, ihget, iherr⟩ := ih qs err₀ hrec
      refine ⟨by simpa using ihlen, ?_, ?_⟩
      · intro i hi hi₂ hn
        cases i with
        | zero =>
          have hn₂ : p.license_spdx = none := hn
          have hpk₂ := hpk
          simp only [minimizePackage, hn₂, Except.ok.injEq] at hpk₂
          exact show q = p from hpk₂.symm
        | succ j =>
          exact ihget j (Nat.lt_of_succ_lt_succ hi) (Nat.lt_of_succ_lt_succ hi₂) hn
      · intro hsome
        obtain ⟨r, hr, hrn⟩ := iherr hsome
        exact ⟨r, List.mem_cons_of_mem p hr, hrn⟩

/-- Witness for minimize_requirements_none_frame on a package without a
stored expression: it comes back unchanged with no error. -/
theorem minimize_requirements_none_frame_witness :
    minimize_requirements sampleLib [("MIT")] [pkgNoSpdx] = ([pkgNoSpdx], none) ∧
    (([pkgNoSpdx] : List Package).length = ([pkgNoSpdx] : List Package).length ∧
     (∀ i (hi : i < ([pkgNoSpdx] : List Package).length)
        (hi₂ : i < ([pkgNoSpdx] : List Package).length),
        (([pkgNoSpdx] : List Package).get ⟨i, hi⟩).license_spdx = none →
        ([pkgNoSpdx] : List Package).get ⟨i, hi₂⟩ = ([pkgNoSpdx] : List Package).get ⟨i, hi⟩) ∧
     ((none : Option AggError).isSome = true →
        ∃ q ∈ ([pkgNoSpdx] : List Package), q.license_spdx ≠ none)) :=
  ⟨rfl, minimize_requirements_none_frame sampleLib [("MIT")] [pkgNoSpdx] [pkgNoSpdx] none rfl⟩

/-- C2 counterexample: a malformed stored expression in the first package
makes minimize_requirements abort the whole loop with a bare parse error
carrying no package identity, and the second package is left completely
unprocessed, although minimizing it alone would have pruned its Apache
file. -/
theorem minimize_parse_no_context_cex :
    minimize_requirements sampleLib [("MIT")] [pkgBad, pkgGood] =
      ([pkgBad, pkgGood], some (AggError.parseError ("unbalanced or unknown expression"))) ∧
    minimize_requirements sampleLib [("MIT")] [pkgGood] =
      ([{ pkgGood with license_files := [] }], none) :=
  ⟨rfl, rfl⟩

/-- C2 amended: when a package's stored expression fails to parse, the error
is propagated without package name or version context (a bare parseError),
and the whole minimization call aborts there: the offending package and
every package after it are left unprocessed, while the successfully
processed prefix keeps its pruning. -/
theorem minimize_requirements_parse_abort {Expr : Type} (lib : SpdxLib Expr)
    (accepted : List String) (p : Package) (lspdx emsg : String)
    (hs : p.license_spdx = some lspdx) (hp : lib.parse lspdx = Except.error emsg) :
    ∀ (ps ps₁ qs : List Package),
    minimize_requirements lib accepted ps = (ps₁, none) →
    minimize_requirements lib accepted (ps ++ p :: qs) =
      (ps₁ ++ p :: qs, some (AggError.parseError emsg)) := by
  intro ps
  induction ps with
  | nil =>
    intro ps₁ qs h
    simp only [minimize_requirements, Prod.mk.injEq] at h
    rw [← h.1]
    simp only [List.nil_append]
    simp [minimize_requirements, minimizePackage, hs, hp]
  | cons a as ih =>
    intro ps₁ qs h
    rw [minimize_requirements] at h
    cases hpk : minimizePackage lib accepted a with
    | error e =>
      rw [hpk] at h
      simp at h
    | ok q =>
      rw [hpk] at h
      rcases hrec : minimize_requirements lib accepted as with ⟨qs₀, err⟩
      rw [hrec] at h
      simp only [Prod.mk.injEq] at h
      obtain ⟨h1, h2⟩ := h
      rw [← h1]
      have hrec₀ : minimize_requirements lib accepted as = (qs₀, none) := by
        rw [hrec, h2]
      have hstep := ih qs₀ qs hrec₀
      simp only [List.cons_append]
      rw [minimize_requirements]
      rw [hpk, hstep]

/-- Witness for minimize_requirements_parse_abort: a well-formed package
followed by the malformed one; the prefix is pruned, the rest is untouched
and the error names no package. -/
theorem minimize_requirements_parse_abort_witness :
    pkgBad.license_spdx = some ("(MIT") ∧
    sampleLib.parse ("(MIT") = Except.error ("unbalanced or unknown expression") ∧
    minimize_requirements sampleLib [("MIT")] [pkgGood] =
      ([{ pkgGood with license_files := [] }], none) ∧
    minimize_requirements sampleLib [("MIT")] ([pkgGood] ++ pkgBad :: []) =
      ([{ pkgGood with license_files := [] }] ++ pkgBad :: [],
       some (AggError.parseError ("unbalanced or unknown expression"))) :=
  ⟨rfl, rfl, rfl,
   minimize_requirements_parse_abort sampleLib [("MIT")] pkgBad ("(MIT")
     ("unbalanced or unknown expression") rfl rfl [pkgGood]
     [{ pkgGood with license_files := [] }] [] rfl⟩

/-- A processKrate failure can only be the Ignore bail. -/
theorem processKrate_error_eq (readFile : String → Except String String)
    (licStr : LicenseInfo → String) (kl : KrateLicense) (e : AggError)
    (h : processKrate readFile licStr kl = Except.error e) :
    e = AggError.bail ("Ignoring a crate shouldd not happen") ∧
    kl.lic_info = LicenseInfo.ignore := by
  cases hinfo : kl.lic_info with
  | expr e₀ => simp [processKrate, licInfoCheck, hinfo] at h
  | unknown => simp [processKrate, licInfoCheck, hinfo] at h
  | ignore =>
    simp only [processKrate, licInfoCheck, hinfo, Except.error.injEq] at h
    exact ⟨h.symm, rfl⟩

/-- The package produced for a krate carries the krate's name. -/
theorem processKrate_name (readFile : String → Except String String)
    (licStr : LicenseInfo → String) (kl : KrateLicense) (p : Package) (ws : List Warning)
    (h : processKrate readFile licStr kl = Except.ok (p, ws)) :
    p.package_name = kl.krate.name := by
  cases hc : licInfoCheck kl with
  | error e => simp [processKrate, hc] at h
  | ok ws₁ =>
    simp only [processKrate, hc, Except.ok.injEq, Prod.mk.injEq] at h
    rw [← h.1]

/-- Every package in a successful collect_krate_licenses result has a name
that does not contain the excluded substring. -/
theorem collect_names_not_excluded (readFile : String → Except String String)
    (licStr : LicenseInfo → String) :
    ∀ (gathered : List KrateLicense) (ps : List Package) (ws : List Warning),
    collect_krate_licenses readFile licStr gathered = (Except.ok ps, ws) →
    ∀ p ∈ ps, containsSubstr p.package_name ("tentris") = false := by
  intro gathered
  induction gathered with
  | nil =>
    intro ps ws h
    simp only [collect_krate_licenses, Prod.mk.injEq, Except.ok.injEq] at h
    rw [← h.1]
    intro p hp
    cases hp
  | cons kl rest ih =>
    intro ps ws h
    rw [collect_krate_licenses] at h
    cases htent : containsSubstr kl.krate.name ("tentris") with
    | true =>
      simp only [htent, if_true] at h
      exact ih ps ws h
    | false =>
      simp only [htent, Bool.false_eq_true, if_false] at h
      cases hpk : processKrate readFile licStr kl with
      | error e =>
        rw [hpk] at h
        simp at h
      | ok pw =>
        rw [hpk] at h
        rcases pw with ⟨p₀, ws₀⟩
        rcases hrec : collect_krate_licenses readFile licStr rest with ⟨r, ws₁⟩
        rw [hrec] at h
        cases r with
        | error e => simp at h
        | ok ps₀ =>
          simp only [Prod.mk.injEq, Except.ok.injEq] at h
          obtain ⟨h1, _⟩ := h
          rw [← h1]
          intro p hp
          rcases List.mem_cons.mp hp with rfl | hp₂
          · rw [processKrate_name readFile licStr kl p ws₀ hpk]
            exact htent
          · exact ih ps₀ ws₁ hrec p hp₂

/-- C7: a gathered krate whose name contains "tentris" is skipped before any
classification, diagnostics or file collection — collecting it is the same
as not gathering it at all — and no package with its name can appear in any
successful result. -/
theorem collect_skips_excluded (readFile : String → Except String String)
    (licStr : LicenseInfo → String) (kl : KrateLicense) (rest : List KrateLicense)
    (ht : containsSubstr kl.krate.name ("tentris") = true) :
    collect_krate_licenses readFile licStr (kl :: rest) =
      collect_krate_licenses readFile licStr rest ∧
    ∀ (gathered : List KrateLicense) (ps : List Package) (ws : List Warning),
      collect_krate_licenses readFile licStr gathered = (Except.ok ps, ws) →
      ∀ p ∈ ps, p.package_name ≠ kl.krate.name := by
  constructor
  · rw [collect_krate_licenses]
    simp [ht]
  · intro gathered ps ws h p hp hn
    have hfree := collect_names_not_excluded readFile licStr gathered ps ws h p hp
    rw [hn, ht] at hfree
    exact Bool.noConfusion hfree

/-- Witness for collect_skips_excluded on a concrete excluded krate. -/
theorem collect_skips_excluded_witness :
    containsSubstr klTentrisPlain.krate.name ("tentris") = true ∧
    (collect_krate_licenses sampleRead sampleLicStr (klTentrisPlain :: []) =
       collect_krate_licenses sampleRead sampleLicStr [] ∧
     ∀ (gathered : List KrateLicense) (ps : List Package) (ws : List Warning),
       collect_krate_licenses sampleRead sampleLicStr gathered = (Except.ok ps, ws) →
       ∀ p ∈ ps, p.package_name ≠ klTentrisPlain.krate.name) :=
  ⟨by decide, collect_skips_excluded sampleRead sampleLicStr klTentrisPlain [] (by decide)⟩

/-- C4 counterexample: a gathered krate with Unknown license info yields a
package whose license_spdx is Some of the LicenseInfo rendering, not None —
processing continues and warns, but the field is populated. -/
theorem collect_unknown_spdx_cex :
    klUnknown.lic_info = LicenseInfo.unknown ∧
    collect_krate_licenses sampleRead sampleLicStr [klUnknown] =
      (Except.ok [{ package_name := ("foo"), package_version := ("1.0.0"),
                    package_url := none, license_spdx := some ("Unknown"),
                    license_files := [] }],
       [Warning.unknownLicense ("foo") ("1.0.0"), Warning.noLicenseFiles ("foo") ("1.0.0")]) ∧
    some ("Unknown") ≠ (none : Option String) :=
  ⟨rfl, rfl, fun h => Option.noConfusion h⟩

/-- C4 amended: for every gathered, non-excluded krate whose LicenseInfo is
Unknown, processing continues with no error, an unknown-license warning is
emitted, and the produced package's license_spdx is Some of the string
rendering of the Unknown LicenseInfo rather than None. -/
theorem collect_unknown_continues (readFile : String → Except String String)
    (licStr : LicenseInfo → String) (kl : KrateLicense) (rest : List KrateLicense)
    (hu : kl.lic_info = LicenseInfo.unknown)
    (ht : containsSubstr kl.krate.name ("tentris") = false) :
    ∃ p ws, processKrate readFile licStr kl = Except.ok (p, ws) ∧
      Warning.unknownLicense kl.krate.name kl.krate.version ∈ ws ∧
      p.license_spdx = some (licStr kl.lic_info) ∧
      ∀ (ps : List Package) (ws₂ : List Warning),
        collect_krate_licenses readFile licStr rest = (Except.ok ps, ws₂) →
        ∃ ws₃, collect_krate_licenses readFile licStr (kl :: rest) =
          (Except.ok (p :: ps), ws₃) := by
  have hc : licInfoCheck kl =
      Except.ok [Warning.unknownLicense kl.krate.name kl.krate.version] := by
    simp [licInfoCheck, hu]
  rcases hfw : readLicenseFiles readFile kl.krate.manifest_dir kl.license_files with ⟨lfiles, fws⟩
  have hpk : processKrate readFile licStr kl =
      Except.ok ({ package_name := kl.krate.name, package_version := kl.krate.version,
                   package_url := optOr kl.krate.repository kl.krate.homepage,
                   license_spdx := some (licStr kl.lic_info),
                   license_files := lfiles },
                 [Warning.unknownLicense kl.krate.name kl.krate.version] ++ fws ++
                   (if lfiles.isEmpty then
                      [Warning.noLicenseFiles kl.krate.name kl.krate.version] else [])) := by
    simp [processKrate, hc, hfw]
  refine ⟨_, _, hpk, by simp, rfl, ?_⟩
  intro ps ws₂ hr
  refine ⟨([Warning.unknownLicense kl.krate.name kl.krate.version] ++ fws ++
    (if lfiles.isEmpty then [Warning.noLicenseFiles kl.krate.name kl.krate.version]
     else [])) ++ ws₂, ?_⟩
  rw [collect_krate_licenses]
  simp [ht, hpk, hr]

/-- Witness for collect_unknown_continues on a concrete krate with Unknown
license info and an empty gathered tail. -/
theorem collect_unknown_continues_witness :
    klUnknown.lic_info = LicenseInfo.unknown ∧
    containsSubstr klUnknown.krate.name ("tentris") = false ∧
    (∃ p ws, processKrate sampleRead sampleLicStr klUnknown = Except.ok (p, ws) ∧
      Warning.unknownLicense klUnknown.krate.name klUnknown.krate.version ∈ ws ∧
      p.license_spdx = some (sampleLicStr klUnknown.lic_info) ∧
      ∀ (ps : List Package) (ws₂ : List Warning),
        collect_krate_licenses sampleRead sampleLicStr [] = (Except.ok ps, ws₂) →
        ∃ ws₃, collect_krate_licenses sampleRead sampleLicStr (klUnknown :: []) =
          (Except.ok (p :: ps), ws₃)) :=
  ⟨rfl, by decide,
   collect_unknown_continues sampleRead sampleLicStr klUnknown [] rfl (by decide)⟩

/-- C5 counterexample: a gathered krate with Ignore license info whose name
matches the exclusion rule is skipped silently — collect_krate_licenses
returns Ok with no packages instead of failing. -/
theorem collect_ignore_excluded_cex :
    klTentrisIgnore.lic_info = LicenseInfo.ignore ∧
    collect_krate_licenses sampleRead sampleLicStr [klTentrisIgnore] = (Except.ok [], []) :=
  ⟨rfl, rfl⟩

/-- C5 amended: if any gathered krate that is not excluded by the name rule
has Ignore license info, collect_krate_licenses fails with the bail error of
lib.rs line 149 and produces no package list. -/
theorem collect_ignore_bails (readFile : String → Except String String)
    (licStr : LicenseInfo → String) :
    ∀ (gathered : List KrateLicense) (kl : KrateLicense),
    kl ∈ gathered → kl.lic_info = LicenseInfo.ignore →
    containsSubstr kl.krate.name ("tentris") = false →
    (collect_krate_licenses readFile licStr gathered).1 =
      Except.error (AggError.bail ("Ignoring a crate shouldd not happen")) := by
  intro gathered
  induction gathered with
  | nil =>
    intro kl hm
    cases hm
  | cons g rest ih =>
    intro kl hm hig ht
    rw [collect_krate_licenses]
    rcases List.mem_cons.mp hm with rfl | hm₂
    · have hpk : processKrate readFile licStr kl =
          Except.error (AggError.bail ("Ignoring a crate shouldd not happen")) := by
        simp [processKrate, licInfoCheck, hig]
      simp [ht, hpk]
    · cases htg : containsSubstr g.krate.name ("tentris") with
      | true =>
        simp only [htg, if_true]
        exact ih kl hm₂ hig ht
      | false =>
        simp only [htg, Bool.false_eq_true, if_false]
        cases hpk : processKrate readFile licStr g with
        | error e =>
          have he := processKrate_error_eq readFile licStr g e hpk
          simp [hpk, he.1]
        | ok pw =>
          rcases pw with ⟨p₀, ws₀⟩
          rcases hrec : collect_krate_licenses readFile licStr rest with ⟨r, ws₁⟩
          have hrest := ih kl hm₂ hig ht
          rw [hrec] at hrest
          simp only at hrest
          rw [hrest]

/-- Witness for collect_ignore_bails: one non-excluded Ignore krate makes the
whole call fail with the bail error. -/
theorem collect_ignore_bails_witness :
    klIgnore ∈ [klIgnore] ∧ klIgnore.lic_info = LicenseInfo.ignore ∧
    containsSubstr klIgnore.krate.name ("tentris") = false ∧
    (collect_krate_licenses sampleRead sampleLicStr [klIgnore]).1 =
      Except.error (AggError.bail ("Ignoring a crate shouldd not happen")) :=
  ⟨by decide, rfl, by decide,
   collect_ignore_bails sampleRead sampleLicStr [klIgnore] klIgnore (by decide) rfl (by decide)⟩

/-- C8 counterexample: a gathered krate with a parsed one-leaf expression and
zero license files — a count mismatch — whose name matches the exclusion
rule: no warning is emitted and no package record is produced. -/
theorem collect_mismatch_excluded_cex :
    klTentrisExpr.lic_info = LicenseInfo.expr (SpdxExpr.req ("MIT")) ∧
    reqCount (SpdxExpr.req ("MIT")) ≠ klTentrisExpr.license_files.length ∧
    collect_krate_licenses sampleRead sampleLicStr [klTentrisExpr] = (Except.ok [], []) :=
  ⟨rfl, by decide, rfl⟩

/-- C8 amended: for every gathered, non-excluded krate with a parsed
expression whose requirement-leaf count differs from the number of gathered
license files, processKrate succeeds, emits the count-mismatch warning, and
collect_krate_licenses still produces a package record for the krate with no
error. -/
theorem collect_mismatch_warns (readFile : String → Except String String)
    (licStr : LicenseInfo → String) (kl : KrateLicense) (e : SpdxExpr)
    (rest : List KrateLicense)
    (he : kl.lic_info = LicenseInfo.expr e)
    (ht : containsSubstr kl.krate.name ("tentris") = false)
    (hm : reqCount e ≠ kl.license_files.length) :
    ∃ p ws, processKrate readFile licStr kl = Except.ok (p, ws) ∧
      Warning.countMismatch kl.krate.name kl.krate.version (reqCount e)
        kl.license_files.length ∈ ws ∧
      ∀ (ps : List Package) (ws₂ : List Warning),
        collect_krate_licenses readFile licStr rest = (Except.ok ps, ws₂) →
        ∃ ws₃, collect_krate_licenses readFile licStr (kl :: rest) =
          (Except.ok (p :: ps), ws₃) := by
  have hc : licInfoCheck kl =
      Except.ok [Warning.countMismatch kl.krate.name kl.krate.version (reqCount e)
        kl.license_files.length] := by
    simp [licInfoCheck, he, hm]
  rcases hfw : readLicenseFiles readFile kl.krate.manifest_dir kl.license_files with ⟨lfiles, fws⟩
  have hpk : processKrate readFile licStr kl =
      Except.ok ({ package_name := kl.krate.name, package_version := kl.krate.version,
                   package_url := optOr kl.krate.repository kl.krate.homepage,
                   license_spdx := some (licStr kl.lic_info),
                   license_files := lfiles },
                 [Warning.countMismatch kl.krate.name kl.krate.version (reqCount e)
                    kl.license_files.length] ++ fws ++
                   (if lfiles.isEmpty then
                      [Warning.noLicenseFiles kl.krate.name kl.krate.version] else [])) := by
    simp [processKrate, hc, hfw]
  refine ⟨_, _, hpk, by simp, ?_⟩
  intro ps ws₂ hr
  refine ⟨([Warning.countMismatch kl.krate.name kl.krate.version (reqCount e)
      kl.license_files.length] ++ fws ++
    (if lfiles.isEmpty then [Warning.noLicenseFiles kl.krate.name kl.krate.version]
     else [])) ++ ws₂, ?_⟩
  rw [collect_krate_licenses]
  simp [ht, hpk, hr]

/-- Witness for collect_mismatch_warns on a concrete krate with a one-leaf
expression and no gathered license files. -/
theorem collect_mismatch_warns_witness :
    klMismatch.lic_info = LicenseInfo.expr (SpdxExpr.req ("MIT")) ∧
    containsSubstr klMismatch.krate.name ("tentris") = false ∧
    reqCount (SpdxExpr.req ("MIT")) ≠ klMismatch.license_files.length ∧
    (∃ p ws, processKrate sampleRead sampleLicStr klMismatch = Except.ok (p, ws) ∧
      Warning.countMismatch klMismatch.krate.name klMismatch.krate.version
        (reqCount (SpdxExpr.req ("MIT"))) klMismatch.license_files.length ∈ ws ∧
      ∀ (ps : List Package) (ws₂ : List Warning),
        collect_krate_licenses sampleRead sampleLicStr [] = (Except.ok ps, ws₂) →
        ∃ ws₃, collect_krate_licenses sampleRead sampleLicStr (klMismatch :: []) =
          (Except.ok (p :: ps), ws₃)) :=
  ⟨rfl, by decide, by decide,
   collect_mismatch_warns sampleRead sampleLicStr klMismatch (SpdxExpr.req ("MIT")) []
     rfl (by decide) (by decide)⟩
